import Mathlib

/-!
Verification of the GitHub integration MCP server
(`claude-framework/mcp-servers/github/main.py` and `utils.py`).

Bytes are modelled as `Nat` values (reduced mod 256 where the code produces
them); byte strings (Python `bytes` and the ASCII strings compared by the
signature check) are `List Nat`; 32-bit machine words are `Nat` with explicit
reduction mod `2 ^ 32`.
-/

namespace Studio

/-! ### SHA-256 (FIPS 180-4), as used by `hashlib.sha256` -/

/-- Reduce a word to 32 bits. -/
def w32 (n : Nat) : Nat := n % 4294967296

/-- Right rotation of a 32-bit word. -/
def rotr (n x : Nat) : Nat := w32 ((x >>> n) ||| (x <<< (32 - n)))

/-- The SHA-256 `Ch` function. -/
def ch (x y z : Nat) : Nat := (x &&& y) ^^^ ((4294967295 ^^^ x) &&& z)

/-- The SHA-256 `Maj` function. -/
def maj (x y z : Nat) : Nat := (x &&& y) ^^^ (x &&& z) ^^^ (y &&& z)

/-- The SHA-256 `Σ₀` function. -/
def bigSigma0 (x : Nat) : Nat := rotr 2 x ^^^ rotr 13 x ^^^ rotr 22 x

/-- The SHA-256 `Σ₁` function. -/
def bigSigma1 (x : Nat) : Nat := rotr 6 x ^^^ rotr 11 x ^^^ rotr 25 x

/-- The SHA-256 `σ₀` function. -/
def smallSigma0 (x : Nat) : Nat := rotr 7 x ^^^ rotr 18 x ^^^ (x >>> 3)

/-- The SHA-256 `σ₁` function. -/
def smallSigma1 (x : Nat) : Nat := rotr 17 x ^^^ rotr 19 x ^^^ (x >>> 10)

/-- The 64 SHA-256 round constants. -/
def sha256K : List Nat :=
  [1116352408, 1899447441, 3049323471, 3921009573, 961987163, 1508970993,
   2453635748, 2870763221, 3624381080, 310598401, 607225278, 1426881987,
   1925078388, 2162078206, 2614888103, 3248222580, 3835390401, 4022224774,
   264347078, 604807628, 770255983, 1249150122, 1555081692, 1996064986,
   2554220882, 2821834349, 2952996808, 3210313671, 3336571891, 3584528711,
   113926993, 338241895, 666307205, 773529912, 1294757372, 1396182291,
   1695183700, 1986661051, 2177026350, 2456956037, 2730485921, 2820302411,
   3259730800, 3345764771, 3516065817, 3600352804, 4094571909, 275423344,
   430227734, 506948616, 659060556, 883997877, 958139571, 1322822218,
   1537002063, 1747873779, 1955562222, 2024104815, 2227730452, 2361852424,
   2428436474, 2756734187, 3204031479, 3329325298]

/-- The eight 32-bit working variables of the SHA-256 compression function. -/
structure Hash8 where
  a : Nat
  b : Nat
  c : Nat
  d : Nat
  e : Nat
  f : Nat
  g : Nat
  h : Nat

/-- The SHA-256 initial hash value. -/
def sha256H0 : Hash8 :=
  ⟨1779033703, 3144134277, 1013904242, 2773480762,
   1359893119, 2600822924, 528734635, 1541459225⟩

/-- Big-endian byte serialisation of a number into `k` bytes. -/
def toBytesBE : Nat → Nat → List Nat
  | 0, _ => []
  | k + 1, n => toBytesBE k (n / 256) ++ [n % 256]

/-- Big-endian deserialisation of a byte list into a number. -/
def fromBytesBE (l : List Nat) : Nat := l.foldl (fun acc b => acc * 256 + b) 0

/-- SHA-256 message padding: append `0x80`, zeros, and the 64-bit big-endian
bit length, reaching a multiple of 64 bytes. -/
def sha256Pad (msg : List Nat) : List Nat :=
  let l := msg.length
  let z := (119 - l % 64) % 64
  msg ++ [128] ++ List.replicate z 0 ++ toBytesBE 8 ((8 * l) % 18446744073709551616)

/-- Split a byte list into 64-byte blocks. -/
def chunks64 (l : List Nat) : List (List Nat) :=
  match l with
  | [] => []
  | x :: xs => (x :: xs).take 64 :: chunks64 ((x :: xs).drop 64)
termination_by l.length

/-- The 64-entry SHA-256 message schedule of one 64-byte block. -/
def sha256Schedule (block : List Nat) : List Nat :=
  let w0 := (List.range 16).map (fun i => fromBytesBE ((block.drop (4 * i)).take 4))
  (List.range 48).foldl
    (fun w i =>
      let t := i + 16
      w ++ [w32 (smallSigma1 (w.getD (t - 2) 0) + w.getD (t - 7) 0 +
                 smallSigma0 (w.getD (t - 15) 0) + w.getD (t - 16) 0)])
    w0

/-- One round of the SHA-256 compression function; `kw` is the pair of the
round constant and the schedule word. -/
def sha256Round (st : Hash8) (kw : Nat × Nat) : Hash8 :=
  let t1 := w32 (st.h + bigSigma1 st.e + ch st.e st.f st.g + kw.1 + kw.2)
  let t2 := w32 (bigSigma0 st.a + maj st.a st.b st.c)
  ⟨w32 (t1 + t2), st.a, st.b, st.c, w32 (st.d + t1), st.e, st.f, st.g⟩

/-- Process one 64-byte block, updating the hash state. -/
def sha256Block (st : Hash8) (block : List Nat) : Hash8 :=
  let w := sha256Schedule block
  let r := (sha256K.zip w).foldl sha256Round st
  ⟨w32 (st.a + r.a), w32 (st.b + r.b), w32 (st.c + r.c), w32 (st.d + r.d),
   w32 (st.e + r.e), w32 (st.f + r.f), w32 (st.g + r.g), w32 (st.h + r.h)⟩

/-- SHA-256 digest of a byte string, as 32 bytes. -/
def sha256Bytes (msg : List Nat) : List Nat :=
  let f := (chunks64 (sha256Pad msg)).foldl sha256Block sha256H0
  [f.a, f.b, f.c, f.d, f.e, f.f, f.g, f.h].foldr (fun x acc => toBytesBE 4 x ++ acc) []

/-- ASCII code of the lowercase hex digit of a nibble. -/
def hexDigitByte (n : Nat) : Nat := if n < 10 then 48 + n else 87 + n

/-- Lowercase hex encoding of a byte string, as the ASCII codes of
`hexdigest()`. -/
def bytesToHexAscii (bs : List Nat) : List Nat :=
  bs.foldr (fun b acc => hexDigitByte (b / 16 % 16) :: hexDigitByte (b % 16) :: acc) []

/-! ### HMAC-SHA256 (RFC 2104), as used by `hmac.new(secret, body, hashlib.sha256)` -/

/-- HMAC-SHA256 of a message under a key, as 32 bytes. -/
def hmacSha256 (key msg : List Nat) : List Nat :=
  let k0 := if 64 < key.length then sha256Bytes key else key
  let k := k0 ++ List.replicate (64 - k0.length) 0
  let inner := sha256Bytes (k.map (fun b => b ^^^ 54) ++ msg)
  sha256Bytes (k.map (fun b => b ^^^ 92) ++ inner)

/-- ASCII codes of `hmac.new(key, msg, hashlib.sha256).hexdigest()`. -/
def hexHmacSha256 (key msg : List Nat) : List Nat :=
  bytesToHexAscii (hmacSha256 key msg)

/-! ### `_verify_webhook_signature` (`github/main.py`, lines 529-544)

Strings are code-point lists (the header value is decoded by the framework
as latin-1, so its code points range over 0-255). `hmac.compare_digest` on
two `str` arguments returns their equality when both are ASCII-only and
raises `TypeError` otherwise; `compareDigestE` and `verifyWebhookSignatureE`
model this with an `Except` result, while `compareDigest` and
`verifyWebhookSignature` are their restriction to the ASCII domain, where no
exception can occur. -/

/-- `hmac.compare_digest` on two ASCII strings: true exactly when they are
equal (its constant-time execution is a timing property outside the
functional model); see `compareDigestE` for the behaviour on arbitrary
strings. -/
def compareDigest (a b : List Nat) : Bool := a == b

/-- Whether every code point of a string is ASCII. -/
def isAsciiStr (l : List Nat) : Bool := l.all (fun c => decide (c < 128))

/-- `hmac.compare_digest` on two `str` values: equality when both are
ASCII-only, and `TypeError` otherwise. -/
def compareDigestE (a b : List Nat) : Except String Bool :=
  if isAsciiStr a && isAsciiStr b then Except.ok (a == b)
  else Except.error "comparing strings with non-ASCII characters is not supported"

/-- The ASCII codes of the string `"sha256="`. -/
def sha256Header : List Nat := [115, 104, 97, 50, 53, 54, 61]

/-- `_verify_webhook_signature` on the ASCII domain: the webhook secret (as
its UTF-8 bytes, `none` when unset) and the received signature header
(`none` when absent) are checked for Python falsiness (`None` or empty),
then the expected `"sha256=" + hexdigest` string is compared with
`hmac.compare_digest`. -/
def verifyWebhookSignature (webhookSecret : Option (List Nat)) (body : List Nat)
    (signature : Option (List Nat)) : Bool :=
  match webhookSecret, signature with
  | some secret, some sig =>
    if secret = [] ∨ sig = [] then false
    else compareDigest (sha256Header ++ hexHmacSha256 secret body) sig
  | _, _ => false

/-- `_verify_webhook_signature` with the exception path: as
`verifyWebhookSignature`, but the final comparison is
`hmac.compare_digest`'s full behaviour, which raises `TypeError` when the
received signature contains a non-ASCII character (the expected string is
always ASCII). -/
def verifyWebhookSignatureE (webhookSecret : Option (List Nat)) (body : List Nat)
    (signature : Option (List Nat)) : Except String Bool :=
  match webhookSecret, signature with
  | some secret, some sig =>
    if secret = [] ∨ sig = [] then Except.ok false
    else compareDigestE (sha256Header ++ hexHmacSha256 secret body) sig
  | _, _ => Except.ok false

/-- Flip bit `k` of the byte at position `i` of a byte string (one-bit
mutation of one character of an ASCII signature string). -/
def flipBitAt (l : List Nat) (i k : Nat) : List Nat :=
  l.set i (l.getD i 0 ^^^ (1 <<< k))

/-! ### The `POST /webhooks/github` endpoint (`github_webhook`, lines 498-527)

The incoming HTTP request is modelled by its three relevant headers and the
raw body bytes; `request.json()` is modelled as a total decoding, the decoded
payload being represented by the raw body bytes themselves (no claim inspects
the payload's JSON structure). -/

structure WebhookRequest where
  signatureHeader : Option (List Nat)
  eventHeader : Option String
  deliveryHeader : Option String
  body : List Nat

/-- Outcome of the endpoint: an `HTTPException` status code or the JSON
response `{"status": ..., "delivery_id": ...}`, together with the background
task scheduled for `_process_webhook` (event type, payload, delivery id), if
any. -/
structure WebhookEndpointResult where
  response : Except Nat (String × Option String)
  scheduledTask : Option (Option String × List Nat × Option String)

/-- `github_webhook`: verify the `X-Hub-Signature-256` header against the
body, raising 401 on failure; otherwise schedule `_process_webhook` in the
background and return `{"status": "accepted", "delivery_id": delivery_id}`. -/
def githubWebhook (webhookSecret : Option (List Nat)) (req : WebhookRequest) :
    WebhookEndpointResult :=
  if verifyWebhookSignature webhookSecret req.body req.signatureHeader then
    { response := Except.ok ("accepted", req.deliveryHeader)
      scheduledTask := some (req.eventHeader, req.body, req.deliveryHeader) }
  else
    { response := Except.error 401, scheduledTask := none }

/-! ### Webhook dispatch (`_register_webhook_handlers`, `_process_webhook`,
`_store_webhook_event`, `_notify_studio_backend`, `_store_webhook_error`)

Stateful and effectful steps are modelled as explicit effect traces. The
outcomes of the external systems (the Redis client's presence, whether its
`setex` call raises, and what each event handler does) are supplied by an
environment. -/

/-- The six handlers registered by `_register_webhook_handlers`. -/
inductive HandlerTag
  | push
  | pullRequest
  | issues
  | issueComment
  | pullRequestReview
  | workflowRun
deriving DecidableEq

/-- The handler table of `_register_webhook_handlers`: the keys are the
values of the `WebhookEvent` string enum for the six registered events
(`release`, `deployment`, `check_run`, `check_suite`,
`pull_request_review_comment`, `deployment_status` have no entry). -/
def webhookHandlers : List (String × HandlerTag) :=
  [("push", HandlerTag.push),
   ("pull_request", HandlerTag.pullRequest),
   ("issues", HandlerTag.issues),
   ("issue_comment", HandlerTag.issueComment),
   ("pull_request_review", HandlerTag.pullRequestReview),
   ("workflow_run", HandlerTag.workflowRun)]

/-- Observable side effects of webhook processing. -/
inductive Effect
  | storeEvent (key : String) (ttlSeconds : Nat)
  | storeError (key : String) (ttlSeconds : Nat)
  | handlerRun (tag : HandlerTag)
  | remoteCall (description : String)
  | logWarning (message : String)
  | logError (message : String)
deriving DecidableEq

/-- A cache write (Redis `setex`). -/
def isStateWrite : Effect → Bool
  | Effect.storeEvent _ _ => true
  | Effect.storeError _ _ => true
  | _ => false

/-- An invocation of a registered event handler. -/
def isHandlerRun : Effect → Bool
  | Effect.handlerRun _ => true
  | _ => false

/-- An outgoing remote API call. -/
def isRemoteCall : Effect → Bool
  | Effect.remoteCall _ => true
  | _ => false

/-- Environment: presence of the Redis client, whether storing the event
raises (`some` exception message), and the behaviour of each handler on a
payload (its effect trace and the exception it raises, if any). -/
structure WebhookEnv where
  redisAvailable : Bool
  storeEventOutcome : Option String
  runHandler : HandlerTag → String → List Effect × Option String

/-- `_store_webhook_event`: when the Redis client is present, `setex` the
event under `webhook:<delivery_id>` with a 3600-second TTL (the call may
raise); otherwise do nothing. -/
def storeWebhookEvent (env : WebhookEnv) (deliveryId : String) :
    List Effect × Option String :=
  if env.redisAvailable then
    match env.storeEventOutcome with
    | none => ([Effect.storeEvent ("webhook:" ++ deliveryId) 3600], none)
    | some m => ([], some m)
  else ([], none)

/-- `_get_project_id_for_repo`: the source always returns `None`
("For now, return None"). -/
def getProjectIdForRepo (_owner _name : Option String) : Option String := none

/-- `_notify_studio_backend`: look up the Studio project for the repository
and POST the event to it when found; with the stub lookup no call is made.
Its own exceptions are caught internally, so it never raises. -/
def notifyStudioBackend (_eventType _payload : String) : List Effect :=
  match getProjectIdForRepo none none with
  | some projectId =>
    [Effect.remoteCall ("POST /api/projects/" ++ projectId ++ "/github-events")]
  | none => []

/-- `_store_webhook_error`: when the Redis client is present, `setex` the
error record under `webhook:error:<delivery_id>` with an 86400-second TTL. -/
def storeWebhookError (env : WebhookEnv) (deliveryId : String) : List Effect :=
  if env.redisAvailable then
    [Effect.storeError ("webhook:error:" ++ deliveryId) 86400]
  else []

/-- The `try` block of `_process_webhook`: store the event, look the handler
up in `webhook_handlers` (invoking it when found, logging a warning
otherwise), then notify the Studio backend. Returns the effects performed
and the first exception raised, if any. -/
def processWebhookTry (env : WebhookEnv) (eventType payload deliveryId : String) :
    List Effect × Option String :=
  match storeWebhookEvent env deliveryId with
  | (storeEffs, some m) => (storeEffs, some m)
  | (storeEffs, none) =>
    let (handlerEffs, handlerErr) :=
      match List.lookup eventType webhookHandlers with
      | some tag =>
        let (effs, err) := env.runHandler tag payload
        (Effect.handlerRun tag :: effs, err)
      | none => ([Effect.logWarning ("No handler for webhook event: " ++ eventType)], none)
    match handlerErr with
    | some m => (storeEffs ++ handlerEffs, some m)
    | none => (storeEffs ++ handlerEffs ++ notifyStudioBackend eventType payload, none)

/-- `_process_webhook`: the `try` block, with any exception caught, logged
with the delivery id, and recorded via `_store_webhook_error`; the function
always returns normally. -/
def processWebhook (env : WebhookEnv) (eventType payload deliveryId : String) :
    List Effect :=
  match processWebhookTry env eventType payload deliveryId with
  | (effs, none) => effs
  | (effs, some m) =>
    effs ++ [Effect.logError ("Error processing webhook " ++ deliveryId ++ ": " ++ m)]
      ++ storeWebhookError env deliveryId

/-- An environment in which the Redis client is configured, its writes
succeed, and every handler is a no-op. -/
def envCacheUp : WebhookEnv :=
  { redisAvailable := true, storeEventOutcome := none
    runHandler := fun _ _ => ([], none) }

/-- An environment with no Redis client in which the `push` handler raises. -/
def envNoCacheBoom : WebhookEnv :=
  { redisAvailable := false, storeEventOutcome := none
    runHandler := fun _ _ => ([], some "boom") }

/-- An environment whose Redis client is configured and whose `push` handler
raises. -/
def envCacheBoom : WebhookEnv :=
  { redisAvailable := true, storeEventOutcome := none
    runHandler := fun _ _ => ([], some "boom") }

/-! ### PR metrics aggregation (`_analyze_pr_metrics`, lines 1230-1338, and
`_generate_pr_insights`, lines 1400-1431)

A fetched pull request is modelled by the fields the aggregation loop reads;
timestamps are seconds (`Int`), and the float averages of the source are
modelled as exact rationals. -/

structure PullRequest where
  created_at : Int
  merged : Bool
  merged_at : Option Int
  state : String
  user_login : String
  comments_count : Nat
  reviews_count : Nat
  additions : Nat
  deletions : Nat
  labels : List String
deriving DecidableEq

/-- The `pr_metrics` dictionary of `_analyze_pr_metrics`. -/
structure PRMetrics where
  total_prs : Nat
  merged_prs : Nat
  open_prs : Nat
  closed_without_merge : Nat
  avg_merge_time_hours : ℚ
  avg_review_time_hours : ℚ
  avg_comments : ℚ
  avg_changes : ℚ
  top_contributors : List (String × Nat)
  label_distribution : List (String × Nat)
  daily_activity : List (String × Nat)
deriving DecidableEq

/-- The initial `pr_metrics` dictionary. -/
def initPRMetrics : PRMetrics :=
  { total_prs := 0, merged_prs := 0, open_prs := 0, closed_without_merge := 0
    avg_merge_time_hours := 0, avg_review_time_hours := 0, avg_comments := 0
    avg_changes := 0, top_contributors := [], label_distribution := []
    daily_activity := [] }

/-- `d[k] = d.get(k, 0) + 1` on an insertion-ordered dictionary. -/
def bumpCount (m : List (String × Nat)) (k : String) : List (String × Nat) :=
  match m with
  | [] => [(k, 1)]
  | (k2, v) :: rest => if k2 = k then (k2, v + 1) :: rest else (k2, v) :: bumpCount rest k

/-- The per-PR accumulators of the aggregation loop. -/
structure PRAccum where
  metrics : PRMetrics
  merge_times : List ℚ
  review_times : List ℚ
  comment_counts : List Nat
  change_counts : List Nat

/-- One iteration of the `for pr in prs` loop body (after the cutoff check):
counts by state, merge time in hours, contributor count, comment and review
engagement, change size of merged PRs, and label frequency. The
`pr.merged_at and pr.created_at` truthiness check reduces to the presence of
`merged_at` (`created_at` is always a datetime). -/
def prStep (metricsSel : List String) (acc : PRAccum) (pr : PullRequest) : PRAccum :=
  let m1 := { acc.metrics with total_prs := acc.metrics.total_prs + 1 }
  let m2 :=
    if pr.merged then { m1 with merged_prs := m1.merged_prs + 1 }
    else if pr.state = "open" then { m1 with open_prs := m1.open_prs + 1 }
    else { m1 with closed_without_merge := m1.closed_without_merge + 1 }
  let merge_times :=
    if pr.merged then
      match pr.merged_at with
      | some t => acc.merge_times ++ [((t - pr.created_at : Int) : ℚ) / 3600]
      | none => acc.merge_times
    else acc.merge_times
  let m3 := { m2 with top_contributors := bumpCount m2.top_contributors pr.user_login }
  let comment_counts :=
    if "comments" ∈ metricsSel then
      acc.comment_counts ++ [pr.comments_count + pr.reviews_count]
    else acc.comment_counts
  let change_counts :=
    if "changes" ∈ metricsSel ∧ pr.merged then
      acc.change_counts ++ [pr.additions + pr.deletions]
    else acc.change_counts
  let m4 := { m3 with label_distribution := pr.labels.foldl bumpCount m3.label_distribution }
  ⟨m4, merge_times, acc.review_times, comment_counts, change_counts⟩

/-- The `for pr in prs` loop with its `break` on the first PR created before
the window start. -/
def prLoop (startDate : Int) (metricsSel : List String) :
    List PullRequest → PRAccum → PRAccum
  | [], acc => acc
  | pr :: rest, acc =>
    if pr.created_at < startDate then acc
    else prLoop startDate metricsSel rest (prStep metricsSel acc pr)

/-- After the loop: the averages (each guarded by non-emptiness of its
accumulator; `review_times` is never filled, so `avg_review_time_hours`
stays 0), and the top contributors sorted by count descending (stably, as
`sorted(..., reverse=True)`) and truncated to ten. -/
def finalizePRMetrics (acc : PRAccum) : PRMetrics :=
  let m1 :=
    if acc.merge_times ≠ [] then
      { acc.metrics with
        avg_merge_time_hours := acc.merge_times.sum / acc.merge_times.length }
    else acc.metrics
  let m2 :=
    if acc.comment_counts ≠ [] then
      { m1 with avg_comments := (acc.comment_counts.sum : ℚ) / acc.comment_counts.length }
    else m1
  let m3 :=
    if acc.change_counts ≠ [] then
      { m2 with avg_changes := (acc.change_counts.sum : ℚ) / acc.change_counts.length }
    else m2
  { m3 with
    top_contributors := (m3.top_contributors.mergeSort (fun a b => b.2 ≤ a.2)).take 10 }

/-- The insights of `_generate_pr_insights`, as structured values carrying
the numbers the source formats into strings. -/
inductive Insight
  | mergeRate (ratePercent : ℚ) (merged total : Nat)
  | mergeTimeHours (hours : ℚ)
  | mergeTimeDays (days : ℚ)
  | avgComments (c : ℚ)
  | topContributor (login : String) (count : Nat)
  | highOpenPrs (count : Nat)
deriving DecidableEq

/-- `_generate_pr_insights`: merge rate when any PR was seen, merge time in
hours or days, review engagement, top contributor, and an open-PR warning
above ten. -/
def generatePrInsights (m : PRMetrics) : List Insight :=
  (if 0 < m.total_prs then
    [Insight.mergeRate ((m.merged_prs : ℚ) / (m.total_prs : ℚ) * 100) m.merged_prs m.total_prs]
   else []) ++
  (if 0 < m.avg_merge_time_hours then
    if m.avg_merge_time_hours < 24 then [Insight.mergeTimeHours m.avg_merge_time_hours]
    else [Insight.mergeTimeDays (m.avg_merge_time_hours / 24)]
   else []) ++
  (if 0 < m.avg_comments then [Insight.avgComments m.avg_comments] else []) ++
  (match m.top_contributors with
   | [] => []
   | (login, count) :: _ => [Insight.topContributor login count]) ++
  (if 10 < m.open_prs then [Insight.highOpenPrs m.open_prs] else [])

/-- The aggregation core of `_analyze_pr_metrics`, given the window start
(`now - timeframe_days`), the `metrics` selection argument, and the pull
requests fetched in descending creation order. -/
def analyzePrMetrics (startDate : Int) (metricsSel : List String)
    (prs : List PullRequest) : PRMetrics × List Insight :=
  let acc := prLoop startDate metricsSel prs ⟨initPRMetrics, [], [], [], []⟩
  let m := finalizePRMetrics acc
  (m, generatePrInsights m)

/-- A merged PR created at time 100 (inside a window starting at 50). -/
def prIn : PullRequest :=
  { created_at := 100, merged := true, merged_at := some 3700, state := "closed"
    user_login := "alice", comments_count := 2, reviews_count := 1
    additions := 10, deletions := 5, labels := ["bug"] }

/-- A merged PR created at time 0 (before a window starting at 50). -/
def prOut : PullRequest :=
  { created_at := 0, merged := true, merged_at := some 7200, state := "closed"
    user_login := "bob", comments_count := 9, reviews_count := 9
    additions := 100, deletions := 100, labels := ["feature"] }

/-! ### PR automation configuration (`PRAutomationConfig`, lines 92-99, and
`_get_pr_config`, lines 1368-1373) -/

/-- The `PRAutomationConfig` pydantic model with its field defaults. -/
structure PRAutomationConfig where
  auto_assign : Bool := true
  auto_label : Bool := true
  require_reviews : Nat := 2
  protected_branches : List String := ["main", "master", "production"]
  draft_on_wip : Bool := true
  close_stale_after_days : Nat := 30
deriving DecidableEq

/-- `str(repository.get("id"))`: an absent key stringifies to `"None"`. -/
def reprOptInt : Option Int → String
  | some n => toString n
  | none => "None"

/-- The part of the repository payload `_get_pr_config` reads. -/
structure RepositoryInfo where
  id : Option Int

/-- `_get_pr_config`: look the stringified repository id up in
`self.pr_configs`, returning the stored config when present and a fresh
default `PRAutomationConfig()` otherwise; the config map is threaded through
unchanged (the method only reads it). -/
def getPrConfig (prConfigs : List (String × PRAutomationConfig))
    (repository : RepositoryInfo) :
    PRAutomationConfig × List (String × PRAutomationConfig) :=
  let repoId := reprOptInt repository.id
  match List.lookup repoId prConfigs with
  | some c => (c, prConfigs)
  | none => ({}, prConfigs)

/-! ### `CacheUtils.generate_cache_key` (`github/utils.py`, lines 441-451)

Arguments are either dictionaries (serialised with
`json.dumps(arg, sort_keys=True)`) or other values (their `str()` image,
taken as given). JSON values are modelled inductively; `hashlib.md5` is
implemented below (RFC 1321). -/

/-- Little-endian byte serialisation of a number into `k` bytes. -/
def toBytesLE : Nat → Nat → List Nat
  | 0, _ => []
  | k + 1, n => n % 256 :: toBytesLE k (n / 256)

/-- Little-endian deserialisation of a byte list into a number. -/
def fromBytesLE (l : List Nat) : Nat := l.foldr (fun b acc => acc * 256 + b) 0

/-- Left rotation of a 32-bit word. -/
def rotl (n x : Nat) : Nat := w32 ((x <<< n) ||| (x >>> (32 - n)))

/-- The 64 MD5 round constants `⌊2³² · |sin(i+1)|⌋`. -/
def md5K : List Nat :=
  [3614090360, 3905402710, 606105819, 3250441966, 4118548399, 1200080426,
   2821735955, 4249261313, 1770035416, 2336552879, 4294925233, 2304563134,
   1804603682, 4254626195, 2792965006, 1236535329, 4129170786, 3225465664,
   643717713, 3921069994, 3593408605, 38016083, 3634488961, 3889429448,
   568446438, 3275163606, 4107603335, 1163531501, 2850285829, 4243563512,
   1735328473, 2368359562, 4294588738, 2272392833, 1839030562, 4259657740,
   2763975236, 1272893353, 4139469664, 3200236656, 681279174, 3936430074,
   3572445317, 76029189, 3654602809, 3873151461, 530742520, 3299628645,
   4096336452, 1126891415, 2878612391, 4237533241, 1700485571, 2399980690,
   4293915773, 2240044497, 1873313359, 4264355552, 2734768916, 1309151649,
   4149444226, 3174756917, 718787259, 3951481745]

/-- The 64 MD5 per-round left-rotation amounts. -/
def md5S : List Nat :=
  [7, 12, 17, 22, 7, 12, 17, 22, 7, 12, 17, 22, 7, 12, 17, 22,
   5, 9, 14, 20, 5, 9, 14, 20, 5, 9, 14, 20, 5, 9, 14, 20,
   4, 11, 16, 23, 4, 11, 16, 23, 4, 11, 16, 23, 4, 11, 16, 23,
   6, 10, 15, 21, 6, 10, 15, 21, 6, 10, 15, 21, 6, 10, 15, 21]

/-- The four 32-bit MD5 state words. -/
structure MD5State where
  a : Nat
  b : Nat
  c : Nat
  d : Nat

/-- The MD5 initial state. -/
def md5Init : MD5State := ⟨1732584193, 4023233417, 2562383102, 271733878⟩

/-- MD5 message padding: append `0x80`, zeros, and the 64-bit little-endian
bit length, reaching a multiple of 64 bytes. -/
def md5Pad (msg : List Nat) : List Nat :=
  let l := msg.length
  let z := (119 - l % 64) % 64
  msg ++ [128] ++ List.replicate z 0 ++ toBytesLE 8 ((8 * l) % 18446744073709551616)

/-- The MD5 round function and message-word index for round `i`. -/
def md5FG (i b c d : Nat) : Nat × Nat :=
  if i < 16 then ((b &&& c) ||| ((4294967295 ^^^ b) &&& d), i)
  else if i < 32 then ((d &&& b) ||| ((4294967295 ^^^ d) &&& c), (5 * i + 1) % 16)
  else if i < 48 then (b ^^^ c ^^^ d, (3 * i + 5) % 16)
  else (c ^^^ (b ||| (4294967295 ^^^ d)), (7 * i) % 16)

/-- One MD5 round over the 16 message words `m`. -/
def md5Round (m : List Nat) (st : MD5State) (i : Nat) : MD5State :=
  let fg := md5FG i st.b st.c st.d
  let f := w32 (fg.1 + st.a + md5K.getD i 0 + m.getD fg.2 0)
  ⟨st.d, w32 (st.b + rotl (md5S.getD i 0) f), st.b, st.c⟩

/-- Process one 64-byte block, updating the MD5 state. -/
def md5Block (st : MD5State) (block : List Nat) : MD5State :=
  let m := (List.range 16).map (fun i => fromBytesLE ((block.drop (4 * i)).take 4))
  let r := (List.range 64).foldl (md5Round m) st
  ⟨w32 (st.a + r.a), w32 (st.b + r.b), w32 (st.c + r.c), w32 (st.d + r.d)⟩

/-- MD5 digest of a byte string, as 16 bytes. -/
def md5Bytes (msg : List Nat) : List Nat :=
  let f := (chunks64 (md5Pad msg)).foldl md5Block md5Init
  toBytesLE 4 f.a ++ toBytesLE 4 f.b ++ toBytesLE 4 f.c ++ toBytesLE 4 f.d

/-- ASCII codes of `hashlib.md5(msg).hexdigest()`. -/
def md5Hex (msg : List Nat) : List Nat := bytesToHexAscii (md5Bytes msg)

/-- UTF-8 encoding of a code point. -/
def utf8EncodeChar (c : Nat) : List Nat :=
  if c < 128 then [c]
  else if c < 2048 then [192 + c / 64, 128 + c % 64]
  else if c < 65536 then [224 + c / 4096, 128 + c / 64 % 64, 128 + c % 64]
  else [240 + c / 262144, 128 + c / 4096 % 64, 128 + c / 64 % 64, 128 + c % 64]

/-- UTF-8 encoding of a string (`str.encode()`). -/
def utf8Encode (s : String) : List Nat :=
  s.data.foldr (fun c acc => utf8EncodeChar c.toNat ++ acc) []

/-- JSON values, as passed inside dictionary arguments. -/
inductive JVal where
  | jnull
  | jbool (b : Bool)
  | jnum (n : Int)
  | jstr (s : String)
  | jarr (items : List JVal)
  | jobj (entries : List (String × JVal))

/-- Minimal JSON string escaping (backslash and double quote; the control
and non-ASCII escapes of `json.dumps` are orthogonal to key determinism). -/
def escapeJsonChar (c : Char) : List Char :=
  if c = '\\' ∨ c = '"' then ['\\', c] else [c]

/-- Escape a JSON string body. -/
def escapeJson (s : String) : String :=
  String.mk (s.data.foldr (fun c acc => escapeJsonChar c ++ acc) [])

/-- A quoted JSON string. -/
def quoteJson (s : String) : String := "\"" ++ escapeJson s ++ "\""

/-- `sort_keys=True`: sort serialised object entries by key (Python's
`sorted` compares the keys lexicographically; the sort is stable). -/
def sortEntries (l : List (String × String)) : List (String × String) :=
  l.mergeSort (fun a b => decide (a.1 ≤ b.1))

/-- `json.dumps(v, sort_keys=True)` with the default `(", ", ": ")`
separators. Object entries are serialised and then sorted by key; since the
comparator reads only the key, this coincides with sorting the items first
as the library does. -/
def jsonDumps : JVal → String
  | .jnull => "null"
  | .jbool b => if b then "true" else "false"
  | .jnum n => toString n
  | .jstr s => quoteJson s
  | .jarr items =>
    "[" ++ String.intercalate ", " (items.attach.map (fun x => jsonDumps x.1)) ++ "]"
  | .jobj entries =>
    "\x7b" ++ String.intercalate ", "
      ((sortEntries (entries.attach.map (fun x => (x.1.1, jsonDumps x.1.2)))).map
        (fun e => quoteJson e.1 ++ ": " ++ e.2)) ++ "\x7d"
decreasing_by
  · have := List.sizeOf_lt_of_mem x.2
    simp only [JVal.jarr.sizeOf_spec]
    omega
  · have h1 := List.sizeOf_lt_of_mem x.2
    have h2 : sizeOf x.1.2 < sizeOf x.1 := by
      cases hx : x.1 with
      | mk k v => simp [hx]
    simp only [JVal.jobj.sizeOf_spec]
    omega

/-- An argument of `generate_cache_key`: a dictionary, or any other value
represented by its `str()` image. -/
inductive CacheArg where
  | dict (entries : List (String × JVal))
  | other (repr : String)

/-- The string a single argument contributes to the joined key material. -/
def cacheArgStr : CacheArg → String
  | .dict entries => jsonDumps (.jobj entries)
  | .other s => s

/-- `CacheUtils.generate_cache_key`: serialise each argument (dictionaries
via `json.dumps(..., sort_keys=True)`), join with `":"`, UTF-8 encode, and
return the MD5 hexdigest (as its ASCII codes). -/
def generateCacheKey (args : List CacheArg) : List Nat :=
  md5Hex (utf8Encode (String.intercalate ":" (args.map cacheArgStr)))

/-- Well-formedness of a JSON value as the image of a Python value: every
object has pairwise-distinct keys (guaranteed by Python dictionaries). -/
def wfJB : JVal → Bool
  | .jnull => true
  | .jbool _ => true
  | .jnum _ => true
  | .jstr _ => true
  | .jarr items => items.attach.all (fun x => wfJB x.1)
  | .jobj entries =>
    decide (entries.map Prod.fst).Nodup && entries.attach.all (fun x => wfJB x.1.2)
decreasing_by
  · have := List.sizeOf_lt_of_mem x.2
    simp only [JVal.jarr.sizeOf_spec]
    omega
  · have h1 := List.sizeOf_lt_of_mem x.2
    have h2 : sizeOf x.1.2 < sizeOf x.1 := by
      cases hx : x.1 with
      | mk k v => simp [hx]
    simp only [JVal.jobj.sizeOf_spec]
    omega

/-- Equality of JSON values as Python values: objects compare as key-value
maps, so an object equals any permutation of an object with the same keys
and (recursively) equal values. -/
inductive JEquiv : JVal → JVal → Prop where
  | jnull : JEquiv .jnull .jnull
  | jbool (b : Bool) : JEquiv (.jbool b) (.jbool b)
  | jnum (n : Int) : JEquiv (.jnum n) (.jnum n)
  | jstr (s : String) : JEquiv (.jstr s) (.jstr s)
  | jarr (l1 l2 : List JVal) (hlen : l1.length = l2.length)
      (hval : ∀ (i : Nat) (h1 : i < l1.length) (h2 : i < l2.length),
        JEquiv (l1.get ⟨i, h1⟩) (l2.get ⟨i, h2⟩)) :
      JEquiv (.jarr l1) (.jarr l2)
  | jobj (l1 l' l2 : List (String × JVal)) (hlen : l1.length = l'.length)
      (hkey : ∀ (i : Nat) (h1 : i < l1.length) (h2 : i < l'.length),
        (l1.get ⟨i, h1⟩).1 = (l'.get ⟨i, h2⟩).1)
      (hval : ∀ (i : Nat) (h1 : i < l1.length) (h2 : i < l'.length),
        JEquiv (l1.get ⟨i, h1⟩).2 (l'.get ⟨i, h2⟩).2)
      (hperm : l'.Perm l2) :
      JEquiv (.jobj l1) (.jobj l2)

/-- Object entries with their values serialised. -/
def serEntries (l : List (String × JVal)) : List (String × String) :=
  l.map (fun p => (p.1, jsonDumps p.2))

/-- Pairwise equality of argument lists: non-dictionary arguments have equal
`str()` images; dictionary arguments are equal as key-value maps. -/
inductive CacheArgEquiv : CacheArg → CacheArg → Prop where
  | other (s : String) : CacheArgEquiv (.other s) (.other s)
  | dict (l1 l2 : List (String × JVal)) :
      JEquiv (.jobj l1) (.jobj l2) → CacheArgEquiv (.dict l1) (.dict l2)

/-- Well-formedness of an argument (dictionaries have distinct keys). -/
def wfArg : CacheArg → Prop
  | .dict entries => wfJB (.jobj entries) = true
  | .other _ => True

/-- The dictionary `{"a": 1, "b": 2}` with its keys inserted in the two
possible orders. -/
def dictAB : List (String × JVal) := [("a", JVal.jnum 1), ("b", JVal.jnum 2)]

/-- See `dictAB`. -/
def dictBA : List (String × JVal) := [("b", JVal.jnum 2), ("a", JVal.jnum 1)]

theorem flipBitAt_ne (l : List Nat) (i k : Nat) (hi : i < l.length) :
    flipBitAt l i k ≠ l := by
  intro he
  have hlen : i < (flipBitAt l i k).length := by
    simpa [flipBitAt, List.length_set] using hi
  have h1 : (flipBitAt l i k).getD i 0 = l.getD i 0 ^^^ (1 <<< k) := by
    rw [List.getD_eq_getElem _ _ hlen]
    simp [flipBitAt]
  rw [he] at h1
  have h0 : l.getD i 0 ^^^ 0 = l.getD i 0 ^^^ (1 <<< k) := by
    simpa [Nat.xor_zero] using h1
  have hz := Nat.xor_right_injective h0
  have hpos : 0 < 1 <<< k := by
    rw [Nat.shiftLeft_eq, Nat.one_mul]
    exact Nat.two_pow_pos k
  omega

/-- Unfolding of `verifyWebhookSignature` when both secret and signature are
present. -/
theorem verifyWebhookSignature_some_some (secret body sig : List Nat) :
    verifyWebhookSignature (some secret) body (some sig) =
      if secret = [] ∨ sig = [] then false
      else compareDigest (sha256Header ++ hexHmacSha256 secret body) sig := rfl

theorem verify_valid_aux (secret body : List Nat) (hs : secret ≠ []) :
    verifyWebhookSignature (some secret) body
      (some (sha256Header ++ hexHmacSha256 secret body)) = true := by
  rw [verifyWebhookSignature_some_some, if_neg]
  · simp [compareDigest]
  · push_neg
    exact ⟨hs, by simp [sha256Header]⟩

/-- C1: for every non-empty secret and every body, the signature
`"sha256=" + hexHMAC(secret, body)` is accepted. -/
theorem C1_verify_accepts_valid_signature (secret body : List Nat) (hs : secret ≠ []) :
    verifyWebhookSignature (some secret) body
      (some (sha256Header ++ hexHmacSha256 secret body)) = true :=
  verify_valid_aux secret body hs

theorem C1_witness :
    ([116] : List Nat) ≠ [] ∧
    verifyWebhookSignature (some [116]) [98]
      (some (sha256Header ++ hexHmacSha256 [116] [98])) = true :=
  ⟨by decide, C1_verify_accepts_valid_signature [116] [98] (by decide)⟩

/-- Unfolding of `verifyWebhookSignatureE` when both secret and signature
are present. -/
theorem verifyWebhookSignatureE_some_some (secret body sig : List Nat) :
    verifyWebhookSignatureE (some secret) body (some sig) =
      if secret = [] ∨ sig = [] then Except.ok false
      else compareDigestE (sha256Header ++ hexHmacSha256 secret body) sig := rfl

theorem hexDigitByte_lt_128 (n : Nat) (h : n < 16) : hexDigitByte n < 128 := by
  unfold hexDigitByte
  split <;> omega

theorem bytesToHexAscii_ascii (bs : List Nat) : isAsciiStr (bytesToHexAscii bs) = true := by
  induction bs with
  | nil => rfl
  | cons b rest ih =>
    simp only [bytesToHexAscii, List.foldr_cons] at ih ⊢
    simp only [isAsciiStr, List.all_cons, Bool.and_eq_true, decide_eq_true_eq] at ih ⊢
    exact ⟨hexDigitByte_lt_128 _ (Nat.mod_lt _ (by norm_num)),
           hexDigitByte_lt_128 _ (Nat.mod_lt _ (by norm_num)), ih⟩

theorem validSig_ascii (secret body : List Nat) :
    isAsciiStr (sha256Header ++ hexHmacSha256 secret body) = true := by
  have h := bytesToHexAscii_ascii (hmacSha256 secret body)
  simp only [isAsciiStr, List.all_append, Bool.and_eq_true]
  exact ⟨by decide, by simpa [isAsciiStr, hexHmacSha256] using h⟩

/-- C2 counterexample: flipping bit 7 of the first character of the valid
signature (within the claim's one-bit-of-one-character range) makes the
signature non-ASCII, and `hmac.compare_digest` then raises `TypeError`
instead of returning false. -/
theorem C2_counterexample :
    0 < (sha256Header ++ hexHmacSha256 [116] [98]).length ∧ 7 < 8 ∧
    verifyWebhookSignatureE (some [116]) [98]
      (some (flipBitAt (sha256Header ++ hexHmacSha256 [116] [98]) 0 7)) =
      Except.error "comparing strings with non-ASCII characters is not supported" ∧
    verifyWebhookSignatureE (some [116]) [98]
      (some (flipBitAt (sha256Header ++ hexHmacSha256 [116] [98]) 0 7)) ≠
      Except.ok false := by
  have hflip : flipBitAt (sha256Header ++ hexHmacSha256 [116] [98]) 0 7 =
      243 :: ([104, 97, 50, 53, 54, 61] ++ hexHmacSha256 [116] [98]) := by
    simp [flipBitAt, sha256Header]
  have herr : verifyWebhookSignatureE (some [116]) [98]
      (some (flipBitAt (sha256Header ++ hexHmacSha256 [116] [98]) 0 7)) =
      Except.error "comparing strings with non-ASCII characters is not supported" := by
    rw [hflip, verifyWebhookSignatureE_some_some, if_neg (by simp), compareDigestE,
      if_neg (by simp [isAsciiStr])]
  exact ⟨by simp [sha256Header], by norm_num, herr, by rw [herr]; intro h; cases h⟩

/-- C2 (amended): for every non-empty secret and body, flipping any one of
the low seven bits of any single character of the valid signature keeps the
string ASCII and makes verification return false; flipping bit 7 instead
takes `hmac.compare_digest` into its `TypeError` path
(`C2_counterexample`). -/
theorem C2_verify_rejects_bitflipped_signature (secret body : List Nat) (i k : Nat)
    (hs : secret ≠ [])
    (hi : i < (sha256Header ++ hexHmacSha256 secret body).length)
    (hk : k < 7) :
    verifyWebhookSignatureE (some secret) body
      (some (flipBitAt (sha256Header ++ hexHmacSha256 secret body) i k)) =
      Except.ok false := by
  have hasciiv := validSig_ascii secret body
  have hne := flipBitAt_ne (sha256Header ++ hexHmacSha256 secret body) i k hi
  have hnil : flipBitAt (sha256Header ++ hexHmacSha256 secret body) i k ≠ [] := by
    intro h
    have : (flipBitAt (sha256Header ++ hexHmacSha256 secret body) i k).length = 0 := by
      rw [h]; rfl
    rw [flipBitAt, List.length_set] at this
    omega
  have hmem : ∀ c ∈ sha256Header ++ hexHmacSha256 secret body, c < 128 := by
    intro c hc
    have := List.all_eq_true.mp hasciiv c hc
    exact of_decide_eq_true this
  have hasciif : isAsciiStr (flipBitAt (sha256Header ++ hexHmacSha256 secret body) i k)
      = true := by
    rw [isAsciiStr, List.all_eq_true]
    intro c hc
    rcases List.mem_or_eq_of_mem_set hc with hm | rfl
    · exact decide_eq_true (hmem c hm)
    · have h1 : (sha256Header ++ hexHmacSha256 secret body).getD i 0 < 128 := by
        rw [List.getD_eq_getElem _ _ hi]
        exact hmem _ (List.getElem_mem hi)
      have h2 : (1 <<< k) < 128 := by
        rw [Nat.shiftLeft_eq, Nat.one_mul]
        calc (2:Nat) ^ k ≤ 2 ^ 6 := Nat.pow_le_pow_right (by norm_num) (by omega)
          _ < 128 := by norm_num
      have h3 : (sha256Header ++ hexHmacSha256 secret body).getD i 0 ^^^ (1 <<< k)
          < 128 := by
        have := Nat.xor_lt_two_pow (n := 7) (by simpa using h1) (by simpa using h2)
        simpa using this
      exact decide_eq_true h3
  rw [verifyWebhookSignatureE_some_some, if_neg (by push_neg; exact ⟨hs, hnil⟩),
    compareDigestE, if_pos (by rw [hasciiv, hasciif]; rfl)]
  have : ((sha256Header ++ hexHmacSha256 secret body) ==
      flipBitAt (sha256Header ++ hexHmacSha256 secret body) i k) = false :=
    beq_eq_false_iff_ne.mpr (fun h => hne h.symm)
  rw [this]

theorem C2_witness :
    ([116] : List Nat) ≠ [] ∧
    0 < (sha256Header ++ hexHmacSha256 [116] [98]).length ∧
    0 < 7 ∧
    verifyWebhookSignatureE (some [116]) [98]
      (some (flipBitAt (sha256Header ++ hexHmacSha256 [116] [98]) 0 0)) =
      Except.ok false :=
  ⟨by decide, by simp [sha256Header], by decide,
    C2_verify_rejects_bitflipped_signature [116] [98] 0 0 (by decide)
      (by simp [sha256Header]) (by decide)⟩

/-- C3 counterexample: with a non-empty secret and a non-empty signature
containing a non-ASCII character (code point 200, reachable since the
framework decodes header bytes as latin-1), `hmac.compare_digest` raises
`TypeError`, so `_verify_webhook_signature` does not return a boolean. -/
theorem C3_counterexample :
    verifyWebhookSignatureE (some [116]) [98] (some [200]) =
      Except.error "comparing strings with non-ASCII characters is not supported" ∧
    ∀ b : Bool, verifyWebhookSignatureE (some [116]) [98] (some [200]) ≠ Except.ok b := by
  have herr : verifyWebhookSignatureE (some [116]) [98] (some [200]) =
      Except.error "comparing strings with non-ASCII characters is not supported" := by
    rw [verifyWebhookSignatureE_some_some, if_neg (by simp), compareDigestE,
      if_neg (by simp [isAsciiStr])]
  exact ⟨herr, fun b h => by rw [herr] at h; cases h⟩

/-- C3 (amended): whenever the secret or the signature is absent (`None`) or
empty, `_verify_webhook_signature` returns false, the falsiness guard
short-circuiting before any HMAC is computed; and whenever the signature
string is ASCII-only it returns a boolean without raising. It is not total:
a non-empty secret with a non-ASCII signature raises `TypeError`
(`C3_counterexample`). -/
theorem C3_verify_rejects_absent_or_empty
    (secret : Option (List Nat)) (body : List Nat) (sig : Option (List Nat)) :
    ((secret = none ∨ secret = some [] ∨ sig = none ∨ sig = some []) →
      verifyWebhookSignatureE secret body sig = Except.ok false) ∧
    (∀ s l, secret = some s → sig = some l → isAsciiStr l = true →
      ∃ b, verifyWebhookSignatureE secret body sig = Except.ok b) := by
  constructor
  · intro h
    rcases h with h | h | h | h <;> subst h
    · cases sig <;> rfl
    · cases sig with
      | none => rfl
      | some s => rw [verifyWebhookSignatureE_some_some, if_pos (Or.inl rfl)]
    · cases secret <;> rfl
    · cases secret with
      | none => rfl
      | some s => rw [verifyWebhookSignatureE_some_some, if_pos (Or.inr rfl)]
  · rintro s l rfl rfl hl
    rw [verifyWebhookSignatureE_some_some]
    by_cases hcond : s = [] ∨ l = []
    · rw [if_pos hcond]
      exact ⟨false, rfl⟩
    · rw [if_neg hcond, compareDigestE, if_pos (by rw [validSig_ascii s body, hl]; rfl)]
      exact ⟨_, rfl⟩

theorem C3_witness :
    verifyWebhookSignatureE none [7] (some [1]) = Except.ok false ∧
    (∃ b, verifyWebhookSignatureE (some [116]) [98] (some [104]) = Except.ok b) :=
  ⟨(C3_verify_rejects_absent_or_empty none [7] (some [1])).1 (Or.inl rfl),
   (C3_verify_rejects_absent_or_empty (some [116]) [98] (some [104])).2
     [116] [104] rfl rfl (by decide)⟩

/-- C5: a failed signature check yields HTTP 401 with no background
processing task; a successful check yields the body
`{"status": "accepted", "delivery_id": <X-GitHub-Delivery>}` (and schedules
processing). -/
theorem C5_webhook_endpoint (webhookSecret : Option (List Nat)) (req : WebhookRequest) :
    (verifyWebhookSignature webhookSecret req.body req.signatureHeader = false →
      (githubWebhook webhookSecret req).response = Except.error 401 ∧
      (githubWebhook webhookSecret req).scheduledTask = none) ∧
    (verifyWebhookSignature webhookSecret req.body req.signatureHeader = true →
      (githubWebhook webhookSecret req).response =
        Except.ok ("accepted", req.deliveryHeader) ∧
      (githubWebhook webhookSecret req).scheduledTask =
        some (req.eventHeader, req.body, req.deliveryHeader)) := by
  constructor
  · intro h
    simp [githubWebhook, h]
  · intro h
    simp [githubWebhook, h]

theorem C5_witness :
    (verifyWebhookSignature none [7] none = false ∧
      (githubWebhook none ⟨none, none, none, [7]⟩).response = Except.error 401 ∧
      (githubWebhook none ⟨none, none, none, [7]⟩).scheduledTask = none) ∧
    (verifyWebhookSignature (some [116]) [98]
        (some (sha256Header ++ hexHmacSha256 [116] [98])) = true ∧
      (githubWebhook (some [116])
          ⟨some (sha256Header ++ hexHmacSha256 [116] [98]), some "push", some "d0", [98]⟩).response =
        Except.ok ("accepted", some "d0")) :=
  ⟨⟨rfl, (C5_webhook_endpoint none ⟨none, none, none, [7]⟩).1 rfl⟩,
   ⟨verify_valid_aux [116] [98] (by decide),
    ((C5_webhook_endpoint (some [116])
        ⟨some (sha256Header ++ hexHmacSha256 [116] [98]), some "push", some "d0", [98]⟩).2
      (verify_valid_aux [116] [98] (by decide))).1⟩⟩

/-- C4 counterexample: with the Redis client configured, processing the
unregistered event type `"release"` still writes the delivery to the cache —
`_process_webhook` stores every delivery before looking up a handler — so
it does not hold that no state is written. -/
theorem C4_counterexample :
    List.lookup "release" webhookHandlers = none ∧
    ¬ (∀ e ∈ processWebhook envCacheUp "release" "p" "d1",
        isHandlerRun e = false ∧ isStateWrite e = false ∧ isRemoteCall e = false) := by
  constructor
  · rfl
  · intro h
    have := h (Effect.storeEvent "webhook:d1" 3600) (by decide)
    simp [isStateWrite] at this

/-- C4 (amended): for every event type with no entry in the handler table,
every payload and every environment, processing completes (the function is
total and catches every exception) with no handler invoked and no remote
call made; the delivery is nevertheless stored in the cache whenever the
Redis client is configured. -/
theorem C4_unknown_event_dispatch (env : WebhookEnv) (eventType payload deliveryId : String)
    (h : List.lookup eventType webhookHandlers = none) :
    ∀ e ∈ processWebhook env eventType payload deliveryId,
      isHandlerRun e = false ∧ isRemoteCall e = false := by
  obtain ⟨ra, seo, rh⟩ := env
  have hall : (processWebhook ⟨ra, seo, rh⟩ eventType payload deliveryId).all
      (fun e => !isHandlerRun e && !isRemoteCall e) = true := by
    cases ra <;> cases seo <;>
      simp [processWebhook, processWebhookTry, storeWebhookEvent, h,
        notifyStudioBackend, getProjectIdForRepo, storeWebhookError,
        isHandlerRun, isRemoteCall]
  intro e he
  have hx := List.all_eq_true.mp hall e he
  simp only [Bool.and_eq_true, Bool.not_eq_true'] at hx
  exact hx

theorem C4_witness :
    List.lookup "release" webhookHandlers = none ∧
    ∀ e ∈ processWebhook envCacheUp "release" "p" "d1",
      isHandlerRun e = false ∧ isRemoteCall e = false :=
  ⟨rfl, C4_unknown_event_dispatch envCacheUp "release" "p" "d1" rfl⟩

/-- C6 counterexample: when the Redis client is not configured (as in the
given source, whose `init_cache` is a stub) and the `push` handler raises,
the exception is caught and logged but no error record is stored at all, so
it does not hold that the error is recorded under the delivery id. -/
theorem C6_counterexample :
    (processWebhookTry envNoCacheBoom "push" "p" "d2").2 = some "boom" ∧
    ¬ (∃ ttl, Effect.storeError ("webhook:error:" ++ "d2") ttl
        ∈ processWebhook envNoCacheBoom "push" "p" "d2") := by
  constructor
  · rfl
  · rintro ⟨ttl, h⟩
    simp [processWebhook, processWebhookTry, storeWebhookEvent, envNoCacheBoom,
      webhookHandlers, storeWebhookError] at h

/-- C6 (amended): `_process_webhook` never propagates an exception: whatever
exception the `try` block raises is caught, logged with the delivery id, and
— whenever the Redis client is configured — recorded as an error record
keyed by the delivery id with an 86400-second TTL; the function always
returns its effect trace normally. -/
theorem C6_exceptions_caught (env : WebhookEnv) (eventType payload deliveryId m : String)
    (h : (processWebhookTry env eventType payload deliveryId).2 = some m) :
    Effect.logError ("Error processing webhook " ++ deliveryId ++ ": " ++ m)
        ∈ processWebhook env eventType payload deliveryId ∧
    (env.redisAvailable = true →
      Effect.storeError ("webhook:error:" ++ deliveryId) 86400
        ∈ processWebhook env eventType payload deliveryId) := by
  cases hT : processWebhookTry env eventType payload deliveryId with
  | mk effs err =>
    rw [hT] at h
    simp only at h
    subst h
    constructor
    · simp [processWebhook, hT]
    · intro hr
      simp [processWebhook, hT, storeWebhookError, hr]

theorem C6_witness :
    (processWebhookTry envCacheBoom "push" "p" "d3").2 = some "boom" ∧
    (Effect.logError ("Error processing webhook " ++ "d3" ++ ": " ++ "boom")
        ∈ processWebhook envCacheBoom "push" "p" "d3" ∧
      (envCacheBoom.redisAvailable = true →
        Effect.storeError ("webhook:error:" ++ "d3") 86400
          ∈ processWebhook envCacheBoom "push" "p" "d3")) :=
  ⟨rfl, C6_exceptions_caught envCacheBoom "push" "p" "d3" "boom" rfl⟩

/-- C7: over an empty pull-request list, every count is zero, every average
is zero, the contributor and label maps are empty, and the insights list is
empty. -/
theorem C7_empty_pr_list (startDate : Int) (metricsSel : List String) :
    analyzePrMetrics startDate metricsSel [] =
      ({ total_prs := 0, merged_prs := 0, open_prs := 0, closed_without_merge := 0
         avg_merge_time_hours := 0, avg_review_time_hours := 0, avg_comments := 0
         avg_changes := 0, top_contributors := [], label_distribution := []
         daily_activity := [] }, []) := by
  simp [analyzePrMetrics, prLoop, finalizePRMetrics, initPRMetrics, generatePrInsights,
    List.mergeSort_nil]

theorem prLoop_take (startDate : Int) (metricsSel : List String) :
    ∀ (prs : List PullRequest) (i : Nat) (hi : i < prs.length) (acc : PRAccum),
      (prs.get ⟨i, hi⟩).created_at < startDate →
      (∀ pr ∈ prs.take i, startDate ≤ pr.created_at) →
      prLoop startDate metricsSel prs acc = prLoop startDate metricsSel (prs.take i) acc
  | [], i, hi, _, _, _ => absurd hi (by simp)
  | pr :: rest, 0, _, acc, hcut, _ => by
    simp only [List.get] at hcut
    simp [prLoop, hcut]
  | pr :: rest, i + 1, hi, acc, hcut, hbefore => by
    have hpr : startDate ≤ pr.created_at := hbefore pr (by simp)
    have hlt : ¬ pr.created_at < startDate := not_lt.mpr hpr
    have hi' : i < rest.length := by simpa using hi
    have ih := prLoop_take startDate metricsSel rest i hi' (prStep metricsSel acc pr)
      (by simpa using hcut)
      (fun q hq => hbefore q (by simp [hq]))
    simp only [List.take_succ_cons, prLoop, if_neg hlt]
    exact ih

/-- C8: for every pull-request sequence in descending creation order, the
aggregation stops at the first PR created strictly before the window start:
that PR and every later element contribute nothing — the whole analysis
equals the analysis of the strict prefix before it. -/
theorem C8_early_termination (startDate : Int) (metricsSel : List String)
    (prs : List PullRequest) (i : Nat) (hi : i < prs.length)
    (hdesc : prs.Pairwise (fun a b => b.created_at ≤ a.created_at))
    (hcut : (prs.get ⟨i, hi⟩).created_at < startDate)
    (hbefore : ∀ pr ∈ prs.take i, startDate ≤ pr.created_at) :
    analyzePrMetrics startDate metricsSel prs =
      analyzePrMetrics startDate metricsSel (prs.take i) := by
  unfold analyzePrMetrics
  rw [prLoop_take startDate metricsSel prs i hi _ hcut hbefore]

theorem C8_witness :
    1 < ([prIn, prOut] : List PullRequest).length ∧
    ([prIn, prOut] : List PullRequest).Pairwise (fun a b => b.created_at ≤ a.created_at) ∧
    (([prIn, prOut] : List PullRequest).get ⟨1, by decide⟩).created_at < 50 ∧
    (∀ pr ∈ ([prIn, prOut] : List PullRequest).take 1, (50:Int) ≤ pr.created_at) ∧
    analyzePrMetrics 50 ["comments", "changes"] [prIn, prOut] =
      analyzePrMetrics 50 ["comments", "changes"] (([prIn, prOut] : List PullRequest).take 1) :=
  ⟨by decide, by decide, by decide, by decide,
    C8_early_termination 50 ["comments", "changes"] [prIn, prOut] 1 (by decide)
      (by decide) (by decide) (by decide)⟩

/-- C9: for a repository whose stringified id has no entry in the config
map, `_get_pr_config` returns the default configuration (auto-assign and
auto-label on, two required reviews, the three protected branches, draft on
WIP, 30-day stale threshold) and leaves the map unchanged. -/
theorem C9_default_pr_config (prConfigs : List (String × PRAutomationConfig))
    (repository : RepositoryInfo)
    (h : List.lookup (reprOptInt repository.id) prConfigs = none) :
    getPrConfig prConfigs repository =
      ({ auto_assign := true, auto_label := true, require_reviews := 2
         protected_branches := ["main", "master", "production"]
         draft_on_wip := true, close_stale_after_days := 30 }, prConfigs) := by
  simp [getPrConfig, h]

theorem C9_witness :
    List.lookup (reprOptInt (some 5)) ([] : List (String × PRAutomationConfig)) = none ∧
    getPrConfig [] ⟨some 5⟩ =
      ({ auto_assign := true, auto_label := true, require_reviews := 2
         protected_branches := ["main", "master", "production"]
         draft_on_wip := true, close_stale_after_days := 30 }, []) :=
  ⟨rfl, C9_default_pr_config [] ⟨some 5⟩ rfl⟩

theorem wfJB_jarr_iff (items : List JVal) :
    wfJB (.jarr items) = true ↔ ∀ x ∈ items, wfJB x = true := by
  rw [wfJB, List.all_eq_true]
  constructor
  · intro h x hx
    exact h ⟨x, hx⟩ (List.mem_attach _ _)
  · intro h x _
    exact h x.1 x.2

theorem wfJB_jobj_iff (entries : List (String × JVal)) :
    wfJB (.jobj entries) = true ↔
      (entries.map Prod.fst).Nodup ∧ ∀ p ∈ entries, wfJB p.2 = true := by
  rw [wfJB]
  simp only [Bool.and_eq_true, decide_eq_true_eq, List.all_eq_true]
  constructor
  · intro ⟨hnd, h⟩
    exact ⟨hnd, fun p hp => h ⟨p, hp⟩ (List.mem_attach _ _)⟩
  · intro ⟨hnd, h⟩
    exact ⟨hnd, fun x _ => h x.1 x.2⟩

theorem jsonDumps_jarr (items : List JVal) :
    jsonDumps (.jarr items) =
      "[" ++ String.intercalate ", " (items.map jsonDumps) ++ "]" := by
  rw [jsonDumps, List.attach_map_val items jsonDumps]

theorem jsonDumps_jobj (entries : List (String × JVal)) :
    jsonDumps (.jobj entries) =
      "\x7b" ++ String.intercalate ", "
        ((sortEntries (serEntries entries)).map
          (fun e => quoteJson e.1 ++ ": " ++ e.2)) ++ "\x7d" := by
  rw [jsonDumps, serEntries,
    List.attach_map_val entries (fun p => (p.1, jsonDumps p.2))]

theorem sortEntries_sorted (l : List (String × String))
    (hnd : (l.map Prod.fst).Nodup) :
    List.Sorted (fun a b : String × String => a.1 < b.1) (sortEntries l) := by
  have hs := @List.sorted_mergeSort (String × String)
    (fun a b => decide (a.1 ≤ b.1))
    (fun a b c h1 h2 => by
      simp only [decide_eq_true_eq] at h1 h2 ⊢
      exact le_trans h1 h2)
    (fun a b => by
      simp only [Bool.or_eq_true, decide_eq_true_eq]
      exact le_total a.1 b.1)
    l
  have hp : (sortEntries l).Pairwise (fun a b => a.1 ≤ b.1) :=
    hs.imp (fun h => by simpa using h)
  have hnd2 : ((sortEntries l).map Prod.fst).Nodup :=
    (((List.mergeSort_perm l _).map Prod.fst).nodup_iff).mpr hnd
  have hne : (sortEntries l).Pairwise (fun a b => a.1 ≠ b.1) := by
    rw [List.Nodup, List.pairwise_map] at hnd2
    exact hnd2
  exact (hp.and hne).imp (fun h => lt_of_le_of_ne h.1 h.2)

theorem sortEntries_eq_of_perm (l1 l2 : List (String × String))
    (hp : l1.Perm l2) (hnd : (l1.map Prod.fst).Nodup) :
    sortEntries l1 = sortEntries l2 := by
  haveI : IsAntisymm (String × String) (fun a b => a.1 < b.1) :=
    ⟨fun a b h1 h2 => absurd h2 (lt_asymm h1)⟩
  have hnd2 : (l2.map Prod.fst).Nodup := ((hp.map Prod.fst).nodup_iff).mp hnd
  exact List.eq_of_perm_of_sorted
    ((List.mergeSort_perm l1 _).trans (hp.trans (List.mergeSort_perm l2 _).symm))
    (sortEntries_sorted l1 hnd)
    (sortEntries_sorted l2 hnd2)

/-- Serialisation is invariant under map-equality of well-formed values:
`sort_keys=True` canonicalises key order. -/
theorem jsonDumps_equiv : ∀ {a b : JVal},
    JEquiv a b → wfJB a = true → jsonDumps a = jsonDumps b := by
  intro a b h
  induction h with
  | jnull => intro _; rfl
  | jbool b => intro _; rfl
  | jnum n => intro _; rfl
  | jstr s => intro _; rfl
  | jarr l1 l2 hlen hval ih =>
    intro hwf
    rw [jsonDumps_jarr, jsonDumps_jarr]
    have hmap : l1.map jsonDumps = l2.map jsonDumps := by
      apply List.ext_get (by simpa using hlen)
      intro i h1 h2
      simp only [List.get_map]
      exact ih i _ _ ((wfJB_jarr_iff l1).mp hwf _ (List.get_mem _ _ _))
    rw [hmap]
  | jobj l1 l' l2 hlen hkey hval hperm ih =>
    intro hwf
    obtain ⟨hnd1, helems⟩ := (wfJB_jobj_iff l1).mp hwf
    rw [jsonDumps_jobj, jsonDumps_jobj]
    have h1 : serEntries l1 = serEntries l' := by
      apply List.ext_get (by simp [serEntries, hlen])
      intro i hi1 hi2
      have hb1 : i < l1.length := by simpa [serEntries] using hi1
      have hb2 : i < l'.length := by simpa [serEntries] using hi2
      simp only [serEntries, List.get_map]
      have hk := hkey i hb1 hb2
      have hv := ih i hb1 hb2 (helems _ (List.get_mem _ _ _))
      rw [Prod.ext_iff]
      exact ⟨hk, hv⟩
    have h2 : (serEntries l').Perm (serEntries l2) := hperm.map _
    have hnd : ((serEntries l1).map Prod.fst).Nodup := by
      have heq : (serEntries l1).map Prod.fst = l1.map Prod.fst := by
        simp [serEntries, List.map_map, Function.comp]
      rw [heq]
      exact hnd1
    rw [sortEntries_eq_of_perm (serEntries l1) (serEntries l2) (h1 ▸ h2) hnd]

theorem cacheArgStr_map_eq : ∀ {args1 args2 : List CacheArg},
    List.Forall₂ CacheArgEquiv args1 args2 → (∀ a ∈ args1, wfArg a) →
    args1.map cacheArgStr = args2.map cacheArgStr := by
  intro args1 args2 h
  induction h with
  | nil => intro _; rfl
  | @cons a b t1 t2 ha htail ih =>
    intro hwf
    simp only [List.map_cons]
    have hhead : cacheArgStr a = cacheArgStr b := by
      cases ha with
      | other s => rfl
      | dict l1 l2 hj =>
        exact jsonDumps_equiv hj (hwf _ (List.mem_cons_self _ _))
    rw [hhead, ih (fun a haa => hwf a (List.mem_cons_of_mem _ haa))]

/-- C10: `generate_cache_key` is deterministic with respect to dictionary
key insertion order: pairwise-equal argument lists, with dictionaries equal
as key-value maps, hash to the same cache key. -/
theorem C10_cache_key_deterministic (args1 args2 : List CacheArg)
    (h : List.Forall₂ CacheArgEquiv args1 args2)
    (hwf : ∀ a ∈ args1, wfArg a) :
    generateCacheKey args1 = generateCacheKey args2 := by
  unfold generateCacheKey
  rw [cacheArgStr_map_eq h hwf]

theorem C10_witness :
    List.Forall₂ CacheArgEquiv [CacheArg.other "x", CacheArg.dict dictAB]
      [CacheArg.other "x", CacheArg.dict dictBA] ∧
    (∀ a ∈ [CacheArg.other "x", CacheArg.dict dictAB], wfArg a) ∧
    generateCacheKey [CacheArg.other "x", CacheArg.dict dictAB] =
      generateCacheKey [CacheArg.other "x", CacheArg.dict dictBA] := by
  have hequiv : List.Forall₂ CacheArgEquiv [CacheArg.other "x", CacheArg.dict dictAB]
      [CacheArg.other "x", CacheArg.dict dictBA] := by
    refine List.Forall₂.cons (CacheArgEquiv.other "x")
      (List.Forall₂.cons (CacheArgEquiv.dict dictAB dictBA ?_) List.Forall₂.nil)
    refine JEquiv.jobj dictAB dictAB dictBA rfl (fun i h1 h2 => rfl) ?_ ?_
    · intro i h1 h2
      match i, h1 with
      | 0, _ => exact JEquiv.jnum 1
      | 1, _ => exact JEquiv.jnum 2
    · exact List.Perm.swap _ _ _
  have hwf : ∀ a ∈ [CacheArg.other "x", CacheArg.dict dictAB], wfArg a := by
    intro a ha
    simp only [List.mem_cons, List.not_mem_nil, or_false] at ha
    rcases ha with rfl | rfl
    · trivial
    · show wfJB (.jobj dictAB) = true
      rw [wfJB_jobj_iff]
      refine ⟨by decide, ?_⟩
      intro p hp
      simp only [dictAB, List.mem_cons, List.not_mem_nil, or_false] at hp
      rcases hp with rfl | rfl <;> simp [wfJB]
  exact ⟨hequiv, hwf,
    C10_cache_key_deterministic [CacheArg.other "x", CacheArg.dict dictAB]
      [CacheArg.other "x", CacheArg.dict dictBA] hequiv hwf⟩

end Studio
